import Mathlib

/-!
Verification of the order-translation pipeline implemented in
`src/streamlit_app.py` (class `OrderTranslator`).  Python strings are
embedded as `List Char`; the external spreadsheet and translation services
are modelled by oracles and by an explicit event trace.
-/

namespace OrderTranslation

/-- Python strings are embedded as lists of characters. -/
abbrev Str := List Char

/-- Coerce a Lean string literal to the embedding type. -/
def lc (s : String) : Str := s.data

/-- Python `str.strip()`: remove leading and trailing whitespace.
(Embedded with Lean's `Char.isWhitespace`; the simple-space/tab/newline
characters appearing in this program are covered identically.) -/
def pyStrip (s : Str) : Str :=
  ((s.dropWhile Char.isWhitespace).reverse.dropWhile Char.isWhitespace).reverse

/-! ## Date parsing (`datetime.strptime` for the four formats used at
`streamlit_app.py:216`) -/

/-- A parsed calendar date (the time component is always midnight in this
program, so it is omitted). -/
structure PDate where
  year : Nat
  month : Nat
  day : Nat
deriving DecidableEq, Repr

/-- One token of a `strptime` format string: `%Y`, `%m`, `%d`, or a literal
separator character. -/
inductive FmtTok where
  | year
  | month
  | day
  | lit (c : Char)
deriving DecidableEq, Repr

/-- The numeric value of a decimal digit character, if it is one. -/
def digit? (c : Char) : Option Nat :=
  if c.isDigit then some (c.toNat - '0'.toNat) else none

/-- CPython `_strptime` regex semantics for the directives used here:
`%Y` is exactly four digits; `%m` is `1[0-2]|0[1-9]|[1-9]` (two digits with
value 1..12, falling back to one digit 1..9 on failure, as regex
backtracking does); `%d` is `3[01]|[12]\d|0[1-9]|[1-9]` (two digits with
value 1..31, same one-digit fallback); a literal matches itself; the whole
input must be consumed. -/
def runFmt : List FmtTok → List Char → PDate → Option PDate
  | [], s, acc => if s.isEmpty then some acc else none
  | .lit c :: ts, s, acc =>
    match s with
    | [] => none
    | x :: xs => if x = c then runFmt ts xs acc else none
  | .year :: ts, s, acc =>
    match s with
    | a :: b :: c :: d :: rest =>
      match digit? a, digit? b, digit? c, digit? d with
      | some x1, some x2, some x3, some x4 =>
        runFmt ts rest { acc with year := 1000 * x1 + 100 * x2 + 10 * x3 + x4 }
      | _, _, _, _ => none
    | _ => none
  | .month :: ts, s, acc =>
    let one : Option PDate :=
      match s with
      | a :: rest =>
        match digit? a with
        | some x => if 1 ≤ x then runFmt ts rest { acc with month := x } else none
        | none => none
      | [] => none
    match s with
    | a :: b :: rest =>
      match digit? a, digit? b with
      | some x1, some x2 =>
        let v := 10 * x1 + x2
        if 1 ≤ v ∧ v ≤ 12 then
          match runFmt ts rest { acc with month := v } with
          | some r => some r
          | none => one
        else one
      | _, _ => one
    | _ => one
  | .day :: ts, s, acc =>
    let one : Option PDate :=
      match s with
      | a :: rest =>
        match digit? a with
        | some x => if 1 ≤ x then runFmt ts rest { acc with day := x } else none
        | none => none
      | [] => none
    match s with
    | a :: b :: rest =>
      match digit? a, digit? b with
      | some x1, some x2 =>
        let v := 10 * x1 + x2
        if 1 ≤ v ∧ v ≤ 31 then
          match runFmt ts rest { acc with day := v } with
          | some r => some r
          | none => one
        else one
      | _, _ => one
    | _ => one

/-- Format `'%Y/%m/%d'`. -/
def fmtYmdSlash : List FmtTok := [.year, .lit '/', .month, .lit '/', .day]

/-- Format `'%Y-%m-%d'`. -/
def fmtYmdDash : List FmtTok := [.year, .lit '-', .month, .lit '-', .day]

/-- Format `'%m/%d/%Y'`. -/
def fmtMdySlash : List FmtTok := [.month, .lit '/', .day, .lit '/', .year]

/-- Format `'%d/%m/%Y'`. -/
def fmtDmySlash : List FmtTok := [.day, .lit '/', .month, .lit '/', .year]

/-- Gregorian leap year, as in Python's `datetime`. -/
def isLeap (y : Nat) : Bool := (y % 4 == 0 && y % 100 != 0) || y % 400 == 0

/-- Days in a month, as validated by the `datetime` constructor. -/
def daysInMonth (y m : Nat) : Nat :=
  if m = 2 then (if isLeap y then 29 else 28)
  else if m = 4 ∨ m = 6 ∨ m = 9 ∨ m = 11 then 30
  else 31

/-- The `datetime(year, month, day)` constructor raises `ValueError` unless
the triple denotes a real calendar date in years 1..9999. -/
def validDate (d : PDate) : Bool :=
  decide (1 ≤ d.year ∧ d.year ≤ 9999 ∧ 1 ≤ d.month ∧ d.month ≤ 12 ∧
    1 ≤ d.day ∧ d.day ≤ daysInMonth d.year d.month)

/-- One `datetime.strptime(s, fmt)` attempt: the regex phase followed by
the constructor's calendar validation (both failure modes raise
`ValueError`, which the caller's loop treats identically). -/
def tryFormat (f : List FmtTok) (s : Str) : Option PDate :=
  match runFmt f s ⟨1900, 1, 1⟩ with
  | some d => if validDate d then some d else none
  | none => none

/-- The date-parsing loop at `streamlit_app.py:216-221`: the four formats
are tried in order and the first success wins; if all fail the row's date
stays `None`. -/
def parseDate (s : Str) : Option PDate :=
  match tryFormat fmtYmdSlash s with
  | some d => some d
  | none =>
    match tryFormat fmtYmdDash s with
    | some d => some d
    | none =>
      match tryFormat fmtMdySlash s with
      | some d => some d
      | none => tryFormat fmtDmySlash s

/-- The `datetime` comparison `a <= b` (both values in this program are at
midnight, so it is lexicographic on the calendar date). -/
def dateLE (a b : PDate) : Bool :=
  decide (a.year < b.year ∨ (a.year = b.year ∧ (a.month < b.month ∨
    (a.month = b.month ∧ a.day ≤ b.day))))

example : parseDate (lc "2025/07/01") = some ⟨2025, 7, 1⟩ := by decide
example : parseDate (lc "2025-7-1") = some ⟨2025, 7, 1⟩ := by decide
example : parseDate (lc "07/15/2025") = some ⟨2025, 7, 15⟩ := by decide
example : parseDate (lc "15/07/2025") = some ⟨2025, 7, 15⟩ := by decide
example : parseDate (lc "01/07/2025") = some ⟨2025, 1, 7⟩ := by decide
example : parseDate (lc "2025/02/30") = none := by decide
example : parseDate (lc "2025/13/01") = none := by decide
example : parseDate (lc "not a date") = none := by decide
example : parseDate (lc "2024/02/29") = some ⟨2024, 2, 29⟩ := by decide

/-! ## Translation client (`OrderTranslator.translate_text`,
`streamlit_app.py:95-119`) -/

/-- A well-formed reply from the translation service: the message content
and, when the reply carries a `"usage"` entry, its `total_tokens` count. -/
structure SvcResp where
  content : Str
  usage : Option Nat
deriving DecidableEq, Repr

/-- Result of one `translate_text` call: the returned string, the amount
added to `usage_stats["tokens_used"]`, and whether a service request was
issued at all. -/
structure TransOut where
  result : Str
  tokensDelta : Nat
  requested : Bool
deriving DecidableEq, Repr

/-- Model of `translate_text`: empty or whitespace-only input returns the empty
string with no request; otherwise one request is issued, whose outcome is
the oracle `resp` (`none` models the `try` block raising, i.e. any network,
quota or malformed-response error).  On success the reply is stripped and
the token counter grows by the reported usage (0 when absent); on failure
the sentinel `"[Translation Failed] " + text` is returned and no exception
escapes to the caller. -/
def translate_text (resp : Option SvcResp) (text : Str) : TransOut :=
  if (pyStrip text).isEmpty then ⟨[], 0, false⟩
  else
    match resp with
    | none => ⟨lc "[Translation Failed] " ++ text, 0, true⟩
    | some r => ⟨pyStrip r.content, r.usage.getD 0, true⟩

/-! ## Instruction formatter (`OrderTranslator.format_uw_instructions`,
`streamlit_app.py:121-134`) -/

/-- First constant line of the formatted block. -/
def uwHeader : Str :=
  lc "═══ THE APPROVAL RESULT SHALL BE PROVIDED AFTER RISK INVESTIGATION.@UW ═══\n"

/-- The "confirmation needed" banner inserted when `need_call` is true
(as appended by the code: the banner line plus a blank line). -/
def uwBannerFull : Str :=
  lc "═══ NEED TO CALL AND CONFIRM THE FOLLOWING QUESTIONS： ═══\n\n"

/-- The banner line proper (one trailing newline), the text whose presence
the containment claims are about. -/
def uwBanner : Str :=
  lc "═══ NEED TO CALL AND CONFIRM THE FOLLOWING QUESTIONS： ═══\n"

/-- Constant "review advice" trailer line. -/
def uwTrailer : Str := lc "═══ REVIEW ADVICE： ═══\n"

/-- The conditional middle block of the template: with the banner when
`need_call`, the stripped call-content (an empty, falsy input becomes the
`"[No call content]"` / `"[No content]"` placeholder), then a blank
line. -/
def midBlock (call_content : Str) (need_call : Bool) : Str :=
  if need_call then
    uwBannerFull ++ (if call_content.isEmpty then lc "[No call content]"
      else pyStrip call_content) ++ lc "\n\n"
  else
    (if call_content.isEmpty then lc "[No content]"
      else pyStrip call_content) ++ lc "\n\n"

/-- The advice part: the stripped review-advice, or the `"[No advice]"`
placeholder when empty. -/
def advBlock (review_advice : Str) : Str :=
  if review_advice.isEmpty then lc "[No advice]" else pyStrip review_advice

/-- Model of `format_uw_instructions`: constant header line, conditional middle
block, constant trailer line, advice part — concatenated exactly as the
`+=` sequence at `streamlit_app.py:123-132` does. -/
def format_uw_instructions (call_content review_advice : Str) (need_call : Bool) : Str :=
  uwHeader ++ midBlock call_content need_call ++ uwTrailer ++ advBlock review_advice

/-- The `need_call` flag computed at `streamlit_app.py:288`:
`row[indices['need_call']] in ['是', 'YES', 'yes']`. -/
def needCallOf (cell : Str) : Bool :=
  cell == lc "是" || cell == lc "YES" || cell == lc "yes"

/-! ## Usage accountant (`OrderTranslator.get_usage_info`,
`streamlit_app.py:136-151`) -/

/-- The mutable `self.usage_stats` dictionary. -/
structure UsageStats where
  ordersProcessed : Nat
  tokensUsed : Nat
deriving DecidableEq, Repr

/-- The externally supplied `app_settings` configuration.  The spec's
Limits Configuration lists `cost_per_1k_tokens` among its entries; the
secrets dictionary may indeed carry such an entry, so it is modelled as a
field here — but the code never reads it. -/
structure Settings where
  monthlyBudget : ℚ
  maxDailyOrders : Nat
  costPer1kTokens : ℚ
  sourceSheet : Str
  targetSheet : Str

/-- The read-only usage snapshot returned by `get_usage_info`. -/
structure UsageInfo where
  ordersProcessed : Nat
  tokensUsed : Nat
  estimatedCost : ℚ
  monthlyBudget : ℚ
  maxDailyOrders : Nat
deriving DecidableEq, Repr

/-- Model of `get_usage_info`: the estimated cost is computed as
`(tokens_used / 1000) * 0.002` with the literal rate `0.002`
(`streamlit_app.py:143`); numeric values are modelled as rationals. -/
def get_usage_info (settings : Settings) (stats : UsageStats) : UsageInfo :=
  { ordersProcessed := stats.ordersProcessed
    tokensUsed := stats.tokensUsed
    estimatedCost := (stats.tokensUsed : ℚ) / 1000 * (2 / 1000)
    monthlyBudget := settings.monthlyBudget
    maxDailyOrders := settings.maxDailyOrders }

/-! ## Field resolver (`streamlit_app.py:178-198`) -/

/-- The six logical field keys of `column_map`, in its (insertion-order
preserving) dictionary order. -/
inductive FieldKey where
  | date
  | order_id
  | need_call
  | review_details
  | call_content
  | review_advice
deriving DecidableEq, Repr

/-- The `column_map` synonym table. -/
def synonyms : FieldKey → List Str
  | .date => [lc "审核日期", lc "日期"]
  | .order_id => [lc "订单编号", lc "订单号"]
  | .need_call => [lc "是否需要电核", lc "需要电核"]
  | .review_details => [lc "审核详情", lc "详情"]
  | .call_content => [lc "需要电核的内容", lc "电核内容"]
  | .review_advice => [lc "信审审核意见", lc "信审意见"]

/-- The inner loop over `possible_names`: `headers.index(name)` returns the
first position of the first candidate present, scanning candidates in
order. -/
def firstIndex (headers : List Str) : List Str → Option Nat
  | [] => none
  | n :: ns =>
    match headers.findIdx? (fun h => h == n) with
    | some i => some i
    | none => firstIndex headers ns

/-- Resolution of one logical key against the header row. -/
def resolveKey (headers : List Str) (k : FieldKey) : Option Nat :=
  firstIndex headers (synonyms k)

/-- The resolved `indices` dictionary. -/
structure Indices where
  date : Nat
  order_id : Nat
  need_call : Nat
  review_details : Nat
  call_content : Nat
  review_advice : Nat
deriving DecidableEq, Repr

/-- The resolution loop: keys are resolved in dictionary order and the
first key with no matching synonym aborts the run (`return` at
`streamlit_app.py:198`), reported as that key. -/
def resolveIndices (headers : List Str) : FieldKey ⊕ Indices :=
  match resolveKey headers .date with
  | none => .inl .date
  | some i1 =>
    match resolveKey headers .order_id with
    | none => .inl .order_id
    | some i2 =>
      match resolveKey headers .need_call with
      | none => .inl .need_call
      | some i3 =>
        match resolveKey headers .review_details with
        | none => .inl .review_details
        | some i4 =>
          match resolveKey headers .call_content with
          | none => .inl .call_content
          | some i5 =>
            match resolveKey headers .review_advice with
            | none => .inl .review_advice
            | some i6 => .inr ⟨i1, i2, i3, i4, i5, i6⟩

/-- The value `max(indices.values())`. -/
def maxIndex (i : Indices) : Nat :=
  Nat.max i.date (Nat.max i.order_id (Nat.max i.need_call
    (Nat.max i.review_details (Nat.max i.call_content i.review_advice))))

/-! ## Row filter (`streamlit_app.py:204-227`) -/

/-- Whether one source row survives the filter: its length must exceed the
maximum resolved index, its date cell must parse (`parseDate`), and the
parsed date must be at or after the cutoff (inclusive). -/
def keepRow (inds : Indices) (cutoff : PDate) (row : List Str) : Bool :=
  if row.length ≤ maxIndex inds then false
  else
    match parseDate (row.getD inds.date []) with
    | some d => dateLE cutoff d
    | none => false

/-- The filtering loop over `data[1:]`, appending surviving rows in order. -/
def filterOrders (inds : Indices) (cutoff : PDate) : List (List Str) → List (List Str)
  | [] => []
  | row :: rest =>
    if row.length ≤ maxIndex inds then filterOrders inds cutoff rest
    else
      match parseDate (row.getD inds.date []) with
      | some d =>
        if dateLE cutoff d then row :: filterOrders inds cutoff rest
        else filterOrders inds cutoff rest
      | none => filterOrders inds cutoff rest

/-! ## Event trace of one `process_orders` run -/

/-- Observable interactions of a run with its external services: one
translation request, clearing the existing target worksheet, creating a
fresh one, a rectangular cell write (`update('A{s}:E{e}', rows)`), and the
two formatting directives. -/
inductive Event where
  | translate (text : Str)
  | clearTarget
  | createTarget
  | writeCells (startRow endRow : Nat) (rows : List (List Str))
  | formatBold
  | formatWrap
deriving DecidableEq, Repr

/-- Whether an event touches the destination sheet. -/
def isSheetWrite : Event → Bool
  | .translate _ => false
  | _ => true

/-- Result of `translate_text` as used inside the row loop, with its
event, token delta, and the advanced request counter. -/
structure CallOut where
  result : Str
  delta : Nat
  events : List Event
  callIdx : Nat
deriving Repr

/-- One `self.translate_text(...)` call inside the loop, against a service
oracle indexed by the number of requests issued so far. -/
def runTranslate (svc : Nat → Option SvcResp) (ci : Nat) (text : Str) : CallOut :=
  let t := translate_text (svc ci) text
  ⟨t.result, t.tokensDelta,
    if t.requested then [Event.translate text] else [],
    if t.requested then ci + 1 else ci⟩

/-- Output of processing one filtered row (`streamlit_app.py:282-315`). -/
structure RowOut where
  record : List Str
  events : List Event
  stats : UsageStats
  callIdx : Nat
deriving Repr

/-- Processing of one filtered row: read the resolved cells, translate the
three text fields in order (review details, call content, review advice),
format the instruction block with the `need_call` flag, and build the
five-cell record `[review_date, order_id, translated_details,
uw_instructions, today]`, incrementing `orders_processed`. -/
def processRow (svc : Nat → Option SvcResp) (inds : Indices) (today : Str)
    (ci : Nat) (stats : UsageStats) (row : List Str) : RowOut :=
  let review_date := row.getD inds.date []
  let order_id := row.getD inds.order_id []
  let review_details := row.getD inds.review_details []
  let call_content := row.getD inds.call_content []
  let review_advice := row.getD inds.review_advice []
  let need_call := needCallOf (row.getD inds.need_call [])
  let t1 := runTranslate svc ci review_details
  let t2 := runTranslate svc t1.callIdx call_content
  let t3 := runTranslate svc t2.callIdx review_advice
  let uw := format_uw_instructions t2.result t3.result need_call
  { record := [review_date, order_id, t1.result, uw, today]
    events := t1.events ++ t2.events ++ t3.events
    stats := { ordersProcessed := stats.ordersProcessed + 1
               tokensUsed := stats.tokensUsed + t1.delta + t2.delta + t3.delta }
    callIdx := t3.callIdx }

/-- Accumulated output of the row loop. -/
structure LoopOut where
  records : List (List Str)
  events : List Event
  stats : UsageStats
deriving Repr

/-- The per-row loop (`streamlit_app.py:270-323`).  `rowFail i` models the
broad `except Exception` around row `i`: the external status-container
call inside the `try` block may raise, in which case the row is skipped
(dropped with a warning) and the run continues with the next row. -/
def processLoop (svc : Nat → Option SvcResp) (rowFail : Nat → Bool)
    (inds : Indices) (today : Str) :
    List (List Str) → Nat → Nat → UsageStats → LoopOut
  | [], _, _, stats => ⟨[], [], stats⟩
  | row :: rest, i, ci, stats =>
    if rowFail i then processLoop svc rowFail inds today rest (i + 1) ci stats
    else
      let r := processRow svc inds today ci stats row
      let l := processLoop svc rowFail inds today rest (i + 1) r.callIdx r.stats
      ⟨r.record :: l.records, r.events ++ l.events, l.stats⟩

/-! ## Batch writer (`streamlit_app.py:329-352`) -/

/-- The constant output header row written to `A1:E1`. -/
def headersRow : List Str :=
  [lc "Review Date", lc "Order ID", lc "Review Details",
   lc "UW Instructions", lc "Processing Date"]

/-- The batch loop, fuel-structured over the remaining records: batch
number `bn` covers `processed[bn*20 : (bn+1)*20]` and is written to rows
`start_row = bn*20 + 2` through `start_row + len(batch) - 1`; `startIdx`
accumulates `bn*20`.  Fuel `l.length` always suffices since each step
consumes at least one record. -/
def batchGo : Nat → Nat → List (List Str) → List Event
  | 0, _, _ => []
  | fuel + 1, startIdx, l =>
    match l with
    | [] => []
    | x :: xs =>
      let batch := (x :: xs).take 20
      Event.writeCells (startIdx + 2) (startIdx + 2 + batch.length - 1) batch ::
        batchGo fuel (startIdx + batch.length) ((x :: xs).drop 20)

/-- All batch-write events for the processed records. -/
def batchEvents (startIdx : Nat) (l : List (List Str)) : List Event :=
  batchGo l.length startIdx l

/-- The post-loop persistence stage (`if processed_data:` at
`streamlit_app.py:329`): when at least one record was processed, the
batches are written and then the bold-header and wrap-column directives
are applied; when no record was processed, nothing at all is written or
formatted in this stage. -/
def dataWriteEvents (processed : List (List Str)) : List Event :=
  if processed.isEmpty then []
  else batchEvents 0 processed ++ [Event.formatBold, Event.formatWrap]

/-! ## Pipeline orchestrator (`OrderTranslator.process_orders`,
`streamlit_app.py:153-368`) -/

/-- The terminal outcome of a run, one constructor per `return` site of
`process_orders`; `resultDict` below renders the exact dictionary the
method returns.  Write failures against the sheet service are not
modelled (the sheet is pure state here), so `.ok` covers every run that
passes the daily cap. -/
inductive RunResult where
  | noData
  | missingColumn (k : FieldKey)
  | noOrders
  | overCap (found limit : Nat)
  | ok (countProcessed countFound : Nat) (usage : UsageInfo)
deriving DecidableEq, Repr

/-- Decimal rendering of a number, as a Python f-string does. -/
def natStr (n : Nat) : Str := (Nat.repr n).data

/-- Two-digit zero padding (`strftime` `%m` / `%d`). -/
def pad2 (n : Nat) : Str := if n < 10 then '0' :: natStr n else natStr n

/-- Rendering of `cutoff_date.strftime('%Y-%m-%d')`. -/
def fmtCutoff (d : PDate) : Str :=
  natStr d.year ++ lc "-" ++ pad2 d.month ++ lc "-" ++ pad2 d.day

/-- The `{"success": ..., "message": ...}` dictionary of each return site,
with the exact message strings of the source. -/
def resultDict (cutoff : PDate) : RunResult → Bool × Str
  | .noData => (false, lc "表格没有数据")
  | .missingColumn k => (false, lc "找不到列: " ++ (synonyms k).headD [])
  | .noOrders => (false, lc "没有找到 " ++ fmtCutoff cutoff ++ lc " 及以后的订单")
  | .overCap n m =>
    (false, lc "订单数量(" ++ natStr n ++ lc ")超过每日限制(" ++ natStr m ++ lc ")")
  | .ok n _ _ => (true, lc "成功处理 " ++ natStr n ++ lc " 个订单")

/-- Fixed inputs of one run that do not vary per row. -/
structure RunConfig where
  settings : Settings
  targetExists : Bool
  today : Str

/-- Everything a run produces: its terminal result, the ordered trace of
external interactions, and the final usage counters. -/
structure RunOut where
  result : RunResult
  events : List Event
  stats : UsageStats

/-- The sheet-preparation step (`streamlit_app.py:248-256`): clear the
target worksheet if it exists, otherwise create a fresh one. -/
def prepEvent (targetExists : Bool) : Event :=
  if targetExists then Event.clearTarget else Event.createTarget

/-- Model of `process_orders`: empty-data check, field resolution (aborting on the
first unresolved key), filtering, empty-filter check, the daily-cap check,
then sheet preparation, the `A1:E1` header write, the row loop, and the
batched data writes with the two formatting directives.  `stats0` is the
value of `self.usage_stats` when the run starts. -/
def process_orders (cfg : RunConfig) (svc : Nat → Option SvcResp)
    (rowFail : Nat → Bool) (stats0 : UsageStats) :
    List (List Str) → PDate → RunOut
  | [], _ => ⟨.noData, [], stats0⟩
  | headers :: body, cutoff =>
    match resolveIndices headers with
    | .inl k => ⟨.missingColumn k, [], stats0⟩
    | .inr inds =>
      let filtered := filterOrders inds cutoff body
      if filtered.isEmpty then ⟨.noOrders, [], stats0⟩
      else if cfg.settings.maxDailyOrders < filtered.length then
        ⟨.overCap filtered.length cfg.settings.maxDailyOrders, [], stats0⟩
      else
        let lp := processLoop svc rowFail inds cfg.today filtered 0 0 stats0
        ⟨.ok lp.records.length filtered.length (get_usage_info cfg.settings lp.stats),
          prepEvent cfg.targetExists :: Event.writeCells 1 1 [headersRow] ::
            lp.events ++ dataWriteEvents lp.records,
          lp.stats⟩

/-! ## Interpreting the trace against the destination sheet -/

/-- The destination worksheet: its rows (1-indexed from the outside) plus
the two formatting flags the run can set. -/
structure SheetState where
  grid : List (List Str)
  bold : Bool
  wrap : Bool
deriving Repr

/-- Write one row at 1-based position `i`, extending the grid with empty
rows if needed. -/
def setRowAt (g : List (List Str)) (i : Nat) (r : List Str) : List (List Str) :=
  (g ++ List.replicate (i - g.length) []).set (i - 1) r

/-- Write a rectangular block of rows starting at 1-based row `start`. -/
def writeBlock : List (List Str) → Nat → List (List Str) → List (List Str)
  | g, _, [] => g
  | g, start, r :: rs => writeBlock (setRowAt g start r) (start + 1) rs

/-- Effect of one event on the destination sheet. -/
def applyEvent (s : SheetState) : Event → SheetState
  | .translate _ => s
  | .clearTarget => { s with grid := [] }
  | .createTarget => { s with grid := [] }
  | .writeCells startRow _ rows => { s with grid := writeBlock s.grid startRow rows }
  | .formatBold => { s with bold := true }
  | .formatWrap => { s with wrap := true }

/-- Effect of a trace on the destination sheet. -/
def applyEvents (s : SheetState) (evs : List Event) : SheetState :=
  evs.foldl applyEvent s

/-! ## General lemmas -/

theorem mem_of_mem_dropWhile {α : Type} (p : α → Bool) {a : α} :
    ∀ {l : List α}, a ∈ l.dropWhile p → a ∈ l := by
  intro l h
  induction l with
  | nil => rwa [List.dropWhile_nil] at h
  | cons b t ih =>
    by_cases hb : p b
    · rw [List.dropWhile_cons_of_pos hb] at h
      exact List.mem_cons_of_mem _ (ih h)
    · rwa [List.dropWhile_cons_of_neg hb] at h

theorem mem_of_mem_pyStrip {a : Char} {s : Str} (h : a ∈ pyStrip s) : a ∈ s := by
  unfold pyStrip at h
  rw [List.mem_reverse] at h
  have h2 := mem_of_mem_dropWhile _ h
  rw [List.mem_reverse] at h2
  exact mem_of_mem_dropWhile _ h2

theorem pyStrip_eq_nil_of_white {s : Str}
    (h : ∀ c ∈ s, c.isWhitespace = true) : pyStrip s = [] := by
  unfold pyStrip
  rw [List.dropWhile_eq_nil_iff.mpr h]
  rfl

theorem count_filter_eq {α : Type} [BEq α] [LawfulBEq α] (p : α → Bool)
    (l : List α) (a : α) :
    (l.filter p).count a = if p a = true then l.count a else 0 := by
  by_cases h : p a = true
  · simp [h]
  · simp only [h, if_false]
    exact List.count_eq_zero.mpr fun hm => h (List.mem_filter.mp hm).2

/-! ## Lemmas about the row filter -/

theorem filterOrders_eq_filter (inds : Indices) (cutoff : PDate) :
    ∀ rows, filterOrders inds cutoff rows = rows.filter (keepRow inds cutoff) := by
  intro rows
  induction rows with
  | nil => rfl
  | cons row rest ih =>
    simp only [filterOrders, List.filter_cons, keepRow]
    by_cases h1 : row.length ≤ maxIndex inds
    · simp [h1, ih]
    · simp only [h1, if_false]
      generalize parseDate (row.getD inds.date []) = pd
      cases pd with
      | none => simp [ih]
      | some d => by_cases h2 : dateLE cutoff d <;> simp [h2, ih]

theorem keepRow_iff (inds : Indices) (cutoff : PDate) (row : List Str) :
    keepRow inds cutoff row = true ↔
      (maxIndex inds < row.length ∧
        ∃ d, parseDate (row.getD inds.date []) = some d ∧ dateLE cutoff d = true) := by
  unfold keepRow
  by_cases h1 : row.length ≤ maxIndex inds
  · simp only [h1, if_true]
    simp [Nat.not_lt.mpr h1]
  · simp only [h1, if_false]
    rw [Nat.not_le] at h1
    cases hp : parseDate (row.getD inds.date []) with
    | none => simp [h1]
    | some d => simp [h1, hp]

/-! ## Claim theorems (first group) -/

/-- Claim C3 (confirmed): the filtering pass over the source rows (header
excluded) equals a `List.filter` by the keep-predicate, hence it is a
sublist of the input (original order preserved), a row occurrence survives
exactly when it is kept, a row's multiplicity in the output is its source
multiplicity when kept and zero otherwise (absent rows), and the
keep-predicate holds precisely when the row length covers the maximum
resolved index, the date cell parses under the four-format cascade
(`parseDate`, which tries `%Y/%m/%d`, `%Y-%m-%d`, `%m/%d/%Y`, `%d/%m/%Y`
in that order, first success winning), and the parsed date is at or after
the cutoff (inclusive). -/
theorem C3_confirmed (inds : Indices) (cutoff : PDate) (rows : List (List Str)) :
    filterOrders inds cutoff rows = rows.filter (keepRow inds cutoff) ∧
    List.Sublist (filterOrders inds cutoff rows) rows ∧
    (∀ row, row ∈ filterOrders inds cutoff rows ↔
      row ∈ rows ∧ keepRow inds cutoff row = true) ∧
    (∀ row, (filterOrders inds cutoff rows).count row =
      if keepRow inds cutoff row = true then rows.count row else 0) ∧
    (∀ row, keepRow inds cutoff row = true ↔
      (maxIndex inds < row.length ∧
        ∃ d, parseDate (row.getD inds.date []) = some d ∧ dateLE cutoff d = true)) := by
  refine ⟨filterOrders_eq_filter inds cutoff rows, ?_, ?_, ?_, keepRow_iff inds cutoff⟩
  · rw [filterOrders_eq_filter]
    exact List.filter_sublist rows
  · intro row
    rw [filterOrders_eq_filter]
    exact List.mem_filter
  · intro row
    rw [filterOrders_eq_filter]
    exact count_filter_eq _ rows row

/-- Claim C6 (confirmed): when the translation-service request fails (the
oracle returns `none`, covering any exception raised inside the `try`
block) on an input that actually issues a request, `translate_text`
returns — it does not raise, being a total function whose failure branch
yields a value — the sentinel `"[Translation Failed] " + text`, which
contains the original input text. -/
theorem C6_confirmed (text : Str) (h : pyStrip text ≠ []) :
    (translate_text none text).result = lc "[Translation Failed] " ++ text ∧
    (translate_text none text).requested = true ∧
    text <:+: (translate_text none text).result := by
  have hne : (pyStrip text).isEmpty = false := by
    cases he : (pyStrip text).isEmpty
    · rfl
    · exact absurd (List.isEmpty_iff.mp he) h
  refine ⟨?_, ?_, ?_⟩
  · simp [translate_text, hne]
  · simp [translate_text, hne]
  · exact ⟨lc "[Translation Failed] ", [], by simp [translate_text, hne]⟩

/-- Witness for C6 at the concrete input `"你好"`. -/
theorem C6_witness :
    (translate_text none (lc "你好")).result = lc "[Translation Failed] " ++ lc "你好" ∧
    (lc "你好") <:+: (translate_text none (lc "你好")).result :=
  ⟨(C6_confirmed (lc "你好") (by decide)).1, (C6_confirmed (lc "你好") (by decide)).2.2⟩

/-- Claim C7 (confirmed): an empty or whitespace-only input makes
`translate_text` return the empty string immediately: no service request
is issued and the token counter is not incremented, whatever the service
oracle would have replied. -/
theorem C7_confirmed (text : Str) (resp : Option SvcResp)
    (h : ∀ c ∈ text, c.isWhitespace = true) :
    translate_text resp text = ⟨[], 0, false⟩ := by
  have hs : pyStrip text = [] := pyStrip_eq_nil_of_white h
  simp [translate_text, hs]

/-- Witness for C7 at the concrete whitespace input `"  "` with a service
oracle that would have returned text and a token count. -/
theorem C7_witness :
    translate_text (some ⟨lc "X", some 5⟩) (lc "  ") = ⟨[], 0, false⟩ :=
  C7_confirmed (lc "  ") (some ⟨lc "X", some 5⟩) (by decide)

/-- Counterexample for C1: with `cost_per_1k_tokens` configured to `0.01`
and 1000 tokens used, the claim predicts a cost of `1000/1000 * 0.01`,
but `get_usage_info` reports `1000/1000 * 0.002` — the configured rate is
never read (`streamlit_app.py:143` hardcodes `0.002`). -/
theorem C1_counterexample :
    (get_usage_info ⟨100, 500, 1/100, [], []⟩ ⟨0, 1000⟩).estimatedCost ≠
      ((1000 : ℚ) / 1000) * (1 / 100) := by
  norm_num [get_usage_info]

/-- Claim C1 (corrected): the usage snapshot's estimated cost equals
`tokens_used / 1000 * 0.002` with the rate `0.002` hardcoded; the
externally configured `cost_per_1k_tokens` value is ignored (changing it
never changes the estimate). -/
theorem C1_corrected (settings : Settings) (stats : UsageStats) (c : ℚ) :
    (get_usage_info settings stats).estimatedCost =
      (stats.tokensUsed : ℚ) / 1000 * (2 / 1000) ∧
    (get_usage_info { settings with costPer1kTokens := c } stats).estimatedCost =
      (get_usage_info settings stats).estimatedCost :=
  ⟨rfl, rfl⟩

/-- Claim C10 (confirmed): the `need_call` boolean handed to the
instruction formatter by the row-processing step is
`needCallOf (row[need_call index])`, which is true exactly for the three
strings `'是'`, `'YES'`, `'yes'`; in particular `'Yes'`, `'Y'`, `'true'`
and `'否'` all yield false (and hence no confirmation banner). -/
theorem C10_confirmed :
    (∀ cell, needCallOf cell = true ↔
      (cell = lc "是" ∨ cell = lc "YES" ∨ cell = lc "yes")) ∧
    needCallOf (lc "Yes") = false ∧ needCallOf (lc "Y") = false ∧
    needCallOf (lc "true") = false ∧ needCallOf (lc "否") = false ∧
    (∀ svc inds today ci stats row, ∃ tc ta,
      (processRow svc inds today ci stats row).record.getD 3 [] =
        format_uw_instructions tc ta (needCallOf (row.getD inds.need_call []))) := by
  refine ⟨?_, by decide, by decide, by decide, by decide, ?_⟩
  · intro cell
    simp [needCallOf, or_assoc]
  · intro svc inds today ci stats row
    exact ⟨_, _, rfl⟩

/-! ## Lemmas about the instruction formatter -/

theorem uwBannerFull_eq : uwBannerFull = uwBanner ++ lc "\n" := by decide

theorem q_not_mem_format_false (cc ra : Str) (hcc : 'Q' ∉ cc) (hra : 'Q' ∉ ra) :
    'Q' ∉ format_uw_instructions cc ra false := by
  intro hq
  simp only [format_uw_instructions, midBlock, advBlock, Bool.false_eq_true,
    if_false, List.mem_append] at hq
  rcases hq with (((hq | (hq | hq)) | hq) | hq)
  · exact absurd hq (by decide)
  · by_cases hc : cc.isEmpty
    · rw [if_pos hc] at hq
      exact absurd hq (by decide)
    · rw [if_neg hc] at hq
      exact hcc (mem_of_mem_pyStrip hq)
  · exact absurd hq (by decide)
  · exact absurd hq (by decide)
  · by_cases hr : ra.isEmpty
    · rw [if_pos hr] at hq
      exact absurd hq (by decide)
    · rw [if_neg hr] at hq
      exact hra (mem_of_mem_pyStrip hq)

/-! ## Claim C4 -/

set_option maxRecDepth 100000 in
/-- Counterexample for C4: the claim's "contains the confirmation banner
if and only if `need_call` is true" fails for every-string inputs — a
call-content equal to the banner text itself is embedded verbatim, so
with `need_call = false` the output still contains the banner line. -/
theorem C4_counterexample :
    uwBanner <:+: format_uw_instructions
      (lc "═══ NEED TO CALL AND CONFIRM THE FOLLOWING QUESTIONS： ═══")
      (lc "x") false := by
  refine ⟨uwHeader, lc "\n" ++ uwTrailer ++ lc "x", ?_⟩
  decide

/-- Claim C4 (corrected): for every call-content, review-advice and
`need_call`, the output contains the constant header line and the constant
review-advice trailer; if `need_call` is true it contains the confirmation
banner; if `need_call` is false it does not contain the banner **provided
neither input contains the character `'Q'`** (which occurs in the banner
but nowhere else in the template — without such a restriction an input can
forge the banner, see the counterexample); and empty call-content or
review-advice is replaced by the fixed placeholders `"[No call content]"`
(banner variant) / `"[No content]"` / `"[No advice]"`, never left blank. -/
theorem C4_corrected (cc ra : Str) (nc : Bool) :
    uwHeader <:+: format_uw_instructions cc ra nc ∧
    uwTrailer <:+: format_uw_instructions cc ra nc ∧
    (nc = true → uwBanner <:+: format_uw_instructions cc ra nc) ∧
    (nc = false → 'Q' ∉ cc → 'Q' ∉ ra →
      ¬ uwBanner <:+: format_uw_instructions cc ra nc) ∧
    (cc = [] → nc = true →
      lc "[No call content]" <:+: format_uw_instructions cc ra nc) ∧
    (cc = [] → nc = false →
      lc "[No content]" <:+: format_uw_instructions cc ra nc) ∧
    (ra = [] → lc "[No advice]" <:+: format_uw_instructions cc ra nc) := by
  refine ⟨?_, ?_, ?_, ?_, ?_, ?_, ?_⟩
  · exact ⟨[], midBlock cc nc ++ (uwTrailer ++ advBlock ra),
      by simp [format_uw_instructions, List.append_assoc]⟩
  · exact ⟨uwHeader ++ midBlock cc nc, advBlock ra,
      by simp [format_uw_instructions, List.append_assoc]⟩
  · intro h
    subst h
    refine ⟨uwHeader, lc "\n" ++ ((if cc.isEmpty then lc "[No call content]"
      else pyStrip cc) ++ lc "\n\n") ++ (uwTrailer ++ advBlock ra), ?_⟩
    simp only [format_uw_instructions, midBlock, if_true, uwBannerFull_eq]
    simp [List.append_assoc]
  · intro h hcc hra hinf
    subst h
    obtain ⟨s, t, heq⟩ := hinf
    have hq : 'Q' ∈ (s ++ uwBanner) ++ t :=
      List.mem_append.mpr (Or.inl (List.mem_append.mpr (Or.inr (by decide))))
    rw [heq] at hq
    exact q_not_mem_format_false cc ra hcc hra hq
  · intro hc h
    subst h
    subst hc
    refine ⟨uwHeader ++ uwBannerFull,
      lc "\n\n" ++ (uwTrailer ++ advBlock ra), ?_⟩
    simp [format_uw_instructions, midBlock, List.append_assoc]
  · intro hc h
    subst h
    subst hc
    refine ⟨uwHeader, lc "\n\n" ++ (uwTrailer ++ advBlock ra), ?_⟩
    simp [format_uw_instructions, midBlock, List.append_assoc]
  · intro hr
    subst hr
    refine ⟨uwHeader ++ midBlock cc nc ++ uwTrailer, [], ?_⟩
    simp [format_uw_instructions, advBlock, List.append_assoc]

/-- Witness for C4 at concrete inputs: banner present when `need_call`,
absent for banner-free inputs when not, advice placeholder substituted. -/
theorem C4_witness :
    uwBanner <:+: format_uw_instructions (lc "内容A") (lc "意见A") true ∧
    ¬ uwBanner <:+: format_uw_instructions (lc "hello") (lc "world") false ∧
    lc "[No advice]" <:+: format_uw_instructions (lc "hi") [] false :=
  ⟨(C4_corrected (lc "内容A") (lc "意见A") true).2.2.1 rfl,
   (C4_corrected (lc "hello") (lc "world") false).2.2.2.1 rfl
     (by decide) (by decide),
   (C4_corrected (lc "hi") [] false).2.2.2.2.2.2 rfl⟩

/-! ## Lemmas about the row loop and the batch writer -/

theorem runTranslate_events (svc : Nat → Option SvcResp) (ci : Nat) (text : Str) :
    ∀ e ∈ (runTranslate svc ci text).events, ∃ t, e = Event.translate t := by
  intro e he
  unfold runTranslate at he
  by_cases h : (translate_text (svc ci) text).requested
  · simp only [h, if_true] at he
    rw [List.mem_singleton] at he
    exact ⟨text, he⟩
  · simp only [h, if_false] at he
    exact absurd he (List.not_mem_nil e)

theorem processRow_events (svc : Nat → Option SvcResp) (inds : Indices)
    (today : Str) (ci : Nat) (stats : UsageStats) (row : List Str) :
    ∀ e ∈ (processRow svc inds today ci stats row).events,
      ∃ t, e = Event.translate t := by
  intro e he
  have he2 : e ∈ (runTranslate svc ci (row.getD inds.review_details [])).events ++
      (runTranslate svc (runTranslate svc ci
          (row.getD inds.review_details [])).callIdx
        (row.getD inds.call_content [])).events ++
      (runTranslate svc (runTranslate svc (runTranslate svc ci
            (row.getD inds.review_details [])).callIdx
          (row.getD inds.call_content [])).callIdx
        (row.getD inds.review_advice [])).events := he
  simp only [List.mem_append] at he2
  rcases he2 with (h | h) | h
  · exact runTranslate_events _ _ _ e h
  · exact runTranslate_events _ _ _ e h
  · exact runTranslate_events _ _ _ e h

theorem processLoop_events_translate (svc : Nat → Option SvcResp)
    (rowFail : Nat → Bool) (inds : Indices) (today : Str) :
    ∀ (rows : List (List Str)) (i ci : Nat) (stats : UsageStats),
      ∀ e ∈ (processLoop svc rowFail inds today rows i ci stats).events,
        ∃ t, e = Event.translate t := by
  intro rows
  induction rows with
  | nil =>
    intro i ci stats e he
    exact absurd he (List.not_mem_nil e)
  | cons row rest ih =>
    intro i ci stats e he
    by_cases hf : rowFail i
    · simp only [processLoop, hf, if_true] at he
      exact ih _ _ _ e he
    · simp only [processLoop, hf, Bool.false_eq_true, if_false] at he
      rw [List.mem_append] at he
      rcases he with he | he
      · exact processRow_events _ _ _ _ _ _ e he
      · exact ih _ _ _ e he

theorem batchGo_nil (fuel startIdx : Nat) : batchGo fuel startIdx [] = [] := by
  cases fuel <;> rfl

theorem batchGo_mem_shape :
    ∀ (fuel startIdx : Nat) (l : List (List Str)),
      ∀ e ∈ batchGo fuel startIdx l, ∃ k,
        e = Event.writeCells (startIdx + 20 * k + 2)
              (startIdx + 20 * k + 2 + ((l.drop (20 * k)).take 20).length - 1)
              ((l.drop (20 * k)).take 20) ∧
          ((l.drop (20 * k)).take 20).length ≤ 20 ∧
          (l.drop (20 * k)).take 20 ≠ [] := by
  intro fuel
  induction fuel with
  | zero =>
    intro startIdx l e he
    exact absurd he (List.not_mem_nil e)
  | succ fuel ih =>
    intro startIdx l e he
    cases l with
    | nil => exact absurd he (List.not_mem_nil e)
    | cons x xs =>
      simp only [batchGo] at he
      rw [List.mem_cons] at he
      rcases he with he | he
      · refine ⟨0, ?_, ?_, ?_⟩
        · simpa using he
        · simp [List.length_take]
        · simp
      · by_cases hlen : (x :: xs).length ≤ 20
        · rw [List.drop_eq_nil_of_le hlen, batchGo_nil] at he
          exact absurd he (List.not_mem_nil e)
        · have hb : ((x :: xs).take 20).length = 20 := by
            rw [List.length_take]
            omega
          rw [hb] at he
          obtain ⟨k, hk1, hk2, hk3⟩ := ih (startIdx + 20) ((x :: xs).drop 20) e he
          refine ⟨k + 1, ?_, ?_, ?_⟩
          · rw [hk1]
            rw [List.drop_drop]
            have h1 : startIdx + 20 * (k + 1) + 2 = startIdx + 20 + 20 * k + 2 := by
              ring
            have h2 : 20 + 20 * k = 20 * (k + 1) := by ring
            rw [h1, h2]
          · rw [List.drop_drop, Nat.add_comm 20 (20 * k)] at hk2
            have h2 : 20 * k + 20 = 20 * (k + 1) := by ring
            rwa [h2] at hk2
          · rw [List.drop_drop, Nat.add_comm 20 (20 * k)] at hk3
            have h2 : 20 * k + 20 = 20 * (k + 1) := by ring
            rwa [h2] at hk3

theorem set_append_singleton {α : Type} (g : List α) (x y : α) :
    (g ++ [x]).set g.length y = g ++ [y] := by
  induction g with
  | nil => rfl
  | cons a t ih =>
    simp only [List.cons_append, List.length_cons, List.set_cons_succ, ih]

theorem setRowAt_append (g : List (List Str)) (r : List Str) :
    setRowAt g (g.length + 1) r = g ++ [r] := by
  unfold setRowAt
  have h1 : g.length + 1 - g.length = 1 := by omega
  have h2 : g.length + 1 - 1 = g.length := by omega
  rw [h1, h2, List.replicate_one, set_append_singleton]

theorem writeBlock_append :
    ∀ (rows g : List (List Str)), writeBlock g (g.length + 1) rows = g ++ rows := by
  intro rows
  induction rows with
  | nil => intro g; simp [writeBlock]
  | cons r rs ih =>
    intro g
    show writeBlock (setRowAt g (g.length + 1) r) (g.length + 1 + 1) rs = _
    rw [setRowAt_append]
    have hl : g.length + 1 + 1 = (g ++ [r]).length + 1 := by
      simp
    rw [hl, ih (g ++ [r])]
    simp

theorem applyEvents_batchGo :
    ∀ (fuel : Nat) (l : List (List Str)) (s : SheetState),
      l.length ≤ fuel → 1 ≤ s.grid.length →
      applyEvents s (batchGo fuel (s.grid.length - 1) l) =
        { s with grid := s.grid ++ l } := by
  intro fuel
  induction fuel with
  | zero =>
    intro l s hl hg
    have hnil : l = [] := List.length_eq_zero.mp (Nat.le_zero.mp hl)
    subst hnil
    simp [batchGo, applyEvents]
  | succ fuel ih =>
    intro l s hl hg
    cases l with
    | nil => simp [batchGo, applyEvents]
    | cons x xs =>
      simp only [batchGo, applyEvents, List.foldl_cons]
      have hstart : s.grid.length - 1 + 2 = s.grid.length + 1 := by omega
      show applyEvents
        { s with grid := writeBlock s.grid (s.grid.length - 1 + 2) ((x :: xs).take 20) }
        (batchGo fuel ((s.grid.length - 1) + ((x :: xs).take 20).length)
          ((x :: xs).drop 20)) = _
      rw [hstart, writeBlock_append]
      have hidx : (s.grid.length - 1) + ((x :: xs).take 20).length =
          (s.grid ++ (x :: xs).take 20).length - 1 := by
        simp only [List.length_append]
        omega
      rw [hidx]
      have hfuel : ((x :: xs).drop 20).length ≤ fuel := by
        rw [List.length_drop]
        have : (x :: xs).length ≤ fuel + 1 := hl
        have hpos : 1 ≤ (x :: xs).length := by simp
        omega
      have hglen : 1 ≤ ({ s with grid := s.grid ++ (x :: xs).take 20 } :
          SheetState).grid.length := by
        simp only [List.length_append]
        omega
      have := ih ((x :: xs).drop 20)
        { s with grid := s.grid ++ (x :: xs).take 20 } hfuel hglen
      simp only at this
      rw [this]
      simp [List.append_assoc]

theorem applyEvents_translate_only :
    ∀ (evs : List Event) (s : SheetState),
      (∀ e ∈ evs, ∃ t, e = Event.translate t) → applyEvents s evs = s := by
  intro evs
  induction evs with
  | nil => intro s _; rfl
  | cons e rest ih =>
    intro s h
    obtain ⟨t, ht⟩ := h e (List.mem_cons_self e rest)
    subst ht
    exact ih s fun e he => h e (List.mem_cons_of_mem _ he)

theorem applyEvent_prep (s : SheetState) (b : Bool) :
    applyEvent s (prepEvent b) = { s with grid := [] } := by
  cases b <;> rfl

/-! ## Unfolding lemmas for `process_orders` -/

/-- The run of the loop stage on the filtered rows of one call of
`process_orders` (a transparent abbreviation used to state the claim
theorems). -/
def pipelineLoop (cfg : RunConfig) (svc : Nat → Option SvcResp)
    (rowFail : Nat → Bool) (stats0 : UsageStats) (inds : Indices)
    (body : List (List Str)) (cutoff : PDate) : LoopOut :=
  processLoop svc rowFail inds cfg.today (filterOrders inds cutoff body) 0 0 stats0

theorem process_orders_overCap (cfg : RunConfig) (svc : Nat → Option SvcResp)
    (rowFail : Nat → Bool) (stats0 : UsageStats) (headers : List Str)
    (body : List (List Str)) (cutoff : PDate) (inds : Indices)
    (hres : resolveIndices headers = .inr inds)
    (hover : cfg.settings.maxDailyOrders < (filterOrders inds cutoff body).length) :
    process_orders cfg svc rowFail stats0 (headers :: body) cutoff =
      ⟨.overCap (filterOrders inds cutoff body).length cfg.settings.maxDailyOrders,
        [], stats0⟩ := by
  have hne : filterOrders inds cutoff body ≠ [] := by
    intro h
    rw [h] at hover
    simp at hover
  have he : (filterOrders inds cutoff body).isEmpty = false := by
    cases h : (filterOrders inds cutoff body).isEmpty
    · rfl
    · exact absurd (List.isEmpty_iff.mp h) hne
  simp only [process_orders, hres, he, Bool.false_eq_true, if_false]
  rw [if_pos hover]

theorem process_orders_run (cfg : RunConfig) (svc : Nat → Option SvcResp)
    (rowFail : Nat → Bool) (stats0 : UsageStats) (headers : List Str)
    (body : List (List Str)) (cutoff : PDate) (inds : Indices)
    (hres : resolveIndices headers = .inr inds)
    (hne : filterOrders inds cutoff body ≠ [])
    (hcap : (filterOrders inds cutoff body).length ≤ cfg.settings.maxDailyOrders) :
    process_orders cfg svc rowFail stats0 (headers :: body) cutoff =
      ⟨.ok (pipelineLoop cfg svc rowFail stats0 inds body cutoff).records.length
          (filterOrders inds cutoff body).length
          (get_usage_info cfg.settings
            (pipelineLoop cfg svc rowFail stats0 inds body cutoff).stats),
        prepEvent cfg.targetExists :: Event.writeCells 1 1 [headersRow] ::
          (pipelineLoop cfg svc rowFail stats0 inds body cutoff).events ++
          dataWriteEvents (pipelineLoop cfg svc rowFail stats0 inds body cutoff).records,
        (pipelineLoop cfg svc rowFail stats0 inds body cutoff).stats⟩ := by
  have he : (filterOrders inds cutoff body).isEmpty = false := by
    cases h : (filterOrders inds cutoff body).isEmpty
    · rfl
    · exact absurd (List.isEmpty_iff.mp h) hne
  simp only [process_orders, hres, he, Bool.false_eq_true, if_false]
  rw [if_neg (Nat.not_lt.mpr hcap)]
  rfl

theorem process_orders_missing (cfg : RunConfig) (svc : Nat → Option SvcResp)
    (rowFail : Nat → Bool) (stats0 : UsageStats) (headers : List Str)
    (body : List (List Str)) (cutoff : PDate) (k : FieldKey)
    (hres : resolveIndices headers = .inl k) :
    process_orders cfg svc rowFail stats0 (headers :: body) cutoff =
      ⟨.missingColumn k, [], stats0⟩ := by
  simp only [process_orders, hres]

/-! ## Concrete fixtures used by witnesses and counterexamples -/

/-- A header row using the primary synonym of every logical key. -/
def demoHeaders : List Str :=
  [lc "审核日期", lc "订单编号", lc "是否需要电核", lc "审核详情",
   lc "需要电核的内容", lc "信审审核意见"]

/-- One qualifying source row. -/
def demoRow : List Str :=
  [lc "2025/07/01", lc "ORD1", lc "是", lc "详情A", lc "内容A", lc "意见A"]

/-- The indices `demoHeaders` resolves to. -/
def demoInds : Indices := ⟨0, 1, 2, 3, 4, 5⟩

/-- A cutoff before the demo row's date. -/
def demoCutoff : PDate := ⟨2025, 6, 20⟩

/-- A demo configuration with the default limits. -/
def demoCfg : RunConfig :=
  ⟨⟨100, 500, 2 / 1000, lc "支援审核订单详情", lc "电核订单英文翻译"⟩,
    true, lc "2025-07-02"⟩

/-- A demo configuration whose daily cap is zero. -/
def capCfg : RunConfig :=
  ⟨⟨100, 0, 2 / 1000, lc "支援审核订单详情", lc "电核订单英文翻译"⟩,
    true, lc "2025-07-02"⟩

/-- A translation service that always fails. -/
def svcFail : Nat → Option SvcResp := fun _ => none

/-- No per-row external failure. -/
def noRowFail : Nat → Bool := fun _ => false

example : resolveIndices demoHeaders = .inr demoInds := by decide
example : filterOrders demoInds demoCutoff [demoRow] = [demoRow] := by decide

/-! ## Claims C2 and C9 -/

/-- Claim C2 (confirmed): when the filtered-order count exceeds
`max_daily_orders` the run returns the over-cap failure with an empty
event trace — no translation request, no clear/create, no header write,
no data write — and unchanged usage counters; when the count equals
`max_daily_orders` exactly the run is never the cap rejection. -/
theorem C2_confirmed (cfg : RunConfig) (svc : Nat → Option SvcResp)
    (rowFail : Nat → Bool) (stats0 : UsageStats) (headers : List Str)
    (body : List (List Str)) (cutoff : PDate) (inds : Indices)
    (hres : resolveIndices headers = .inr inds) :
    (cfg.settings.maxDailyOrders < (filterOrders inds cutoff body).length →
      (process_orders cfg svc rowFail stats0 (headers :: body) cutoff).result =
        .overCap (filterOrders inds cutoff body).length cfg.settings.maxDailyOrders ∧
      (resultDict cutoff (process_orders cfg svc rowFail stats0
          (headers :: body) cutoff).result).1 = false ∧
      (process_orders cfg svc rowFail stats0 (headers :: body) cutoff).events = [] ∧
      (process_orders cfg svc rowFail stats0 (headers :: body) cutoff).stats = stats0) ∧
    ((filterOrders inds cutoff body).length = cfg.settings.maxDailyOrders →
      ∀ n m,
        (process_orders cfg svc rowFail stats0 (headers :: body) cutoff).result ≠
          .overCap n m) := by
  constructor
  · intro hover
    rw [process_orders_overCap cfg svc rowFail stats0 headers body cutoff inds
      hres hover]
    exact ⟨rfl, rfl, rfl, rfl⟩
  · intro heq n m
    by_cases hne : filterOrders inds cutoff body = []
    · have he : (filterOrders inds cutoff body).isEmpty = true := by
        rw [hne]
        rfl
      simp only [process_orders, hres, he, if_true]
      intro hcon
      exact RunResult.noConfusion hcon
    · rw [process_orders_run cfg svc rowFail stats0 headers body cutoff inds
        hres hne (Nat.le_of_eq heq)]
      intro hcon
      exact RunResult.noConfusion hcon

/-- Witness for C2: with the daily cap configured to 0 and one qualifying
order, the run is rejected over-cap with an empty trace. -/
theorem C2_witness :
    (process_orders capCfg svcFail noRowFail ⟨0, 0⟩
        (demoHeaders :: [demoRow]) demoCutoff).result = .overCap 1 0 ∧
    (process_orders capCfg svcFail noRowFail ⟨0, 0⟩
        (demoHeaders :: [demoRow]) demoCutoff).events = [] := by
  have h := C2_confirmed capCfg svcFail noRowFail ⟨0, 0⟩ demoHeaders [demoRow]
    demoCutoff demoInds (by decide)
  obtain ⟨h1, h2, h3, h4⟩ := h.1 (by decide)
  exact ⟨h1.trans (by decide), h3⟩

/-- Claim C9 (confirmed): whenever some logical field key matches none of
its accepted synonyms in the header row, the run fails with the message
`"找不到列: "` followed by the first synonym of an unresolved key, and its
event trace is empty — so no translation call and no write to the
destination sheet has happened. -/
theorem C9_confirmed (cfg : RunConfig) (svc : Nat → Option SvcResp)
    (rowFail : Nat → Bool) (stats0 : UsageStats) (headers : List Str)
    (body : List (List Str)) (cutoff : PDate)
    (h : ∃ k, resolveKey headers k = none) :
    ∃ k, resolveKey headers k = none ∧
      (process_orders cfg svc rowFail stats0 (headers :: body) cutoff).result =
        .missingColumn k ∧
      (resultDict cutoff (process_orders cfg svc rowFail stats0
          (headers :: body) cutoff).result).1 = false ∧
      (resultDict cutoff (process_orders cfg svc rowFail stats0
          (headers :: body) cutoff).result).2 =
        lc "找不到列: " ++ (synonyms k).headD [] ∧
      (process_orders cfg svc rowFail stats0 (headers :: body) cutoff).events = [] := by
  have base : ∀ k, resolveIndices headers = Sum.inl k →
      resolveKey headers k = none →
      (∃ k, resolveKey headers k = none ∧
        (process_orders cfg svc rowFail stats0 (headers :: body) cutoff).result =
          .missingColumn k ∧
        (resultDict cutoff (process_orders cfg svc rowFail stats0
            (headers :: body) cutoff).result).1 = false ∧
        (resultDict cutoff (process_orders cfg svc rowFail stats0
            (headers :: body) cutoff).result).2 =
          lc "找不到列: " ++ (synonyms k).headD [] ∧
        (process_orders cfg svc rowFail stats0 (headers :: body) cutoff).events =
          []) := by
    intro k hres hk
    rw [process_orders_missing cfg svc rowFail stats0 headers body cutoff k hres]
    exact ⟨k, hk, rfl, rfl, rfl, rfl⟩
  rcases hd : resolveKey headers FieldKey.date with _ | i1
  · exact base .date (by simp only [resolveIndices, hd]) hd
  · rcases ho : resolveKey headers FieldKey.order_id with _ | i2
    · exact base .order_id (by simp only [resolveIndices, hd, ho]) ho
    · rcases hn : resolveKey headers FieldKey.need_call with _ | i3
      · exact base .need_call (by simp only [resolveIndices, hd, ho, hn]) hn
      · rcases hrd : resolveKey headers FieldKey.review_details with _ | i4
        · exact base .review_details
            (by simp only [resolveIndices, hd, ho, hn, hrd]) hrd
        · rcases hcc : resolveKey headers FieldKey.call_content with _ | i5
          · exact base .call_content
              (by simp only [resolveIndices, hd, ho, hn, hrd, hcc]) hcc
          · rcases hra : resolveKey headers FieldKey.review_advice with _ | i6
            · exact base .review_advice
                (by simp only [resolveIndices, hd, ho, hn, hrd, hcc, hra]) hra
            · obtain ⟨k, hk⟩ := h
              cases k
              all_goals simp_all

/-- Witness for C9: a header row carrying only the date column makes the
run fail before any translation or write (empty trace). -/
theorem C9_witness :
    (process_orders demoCfg svcFail noRowFail ⟨0, 0⟩
        [[lc "审核日期"]] demoCutoff).events = [] ∧
    (resultDict demoCutoff (process_orders demoCfg svcFail noRowFail ⟨0, 0⟩
        [[lc "审核日期"]] demoCutoff).result).1 = false := by
  obtain ⟨k, hk, h1, h2, h3, h4⟩ := C9_confirmed demoCfg svcFail noRowFail ⟨0, 0⟩
    [lc "审核日期"] [] demoCutoff ⟨FieldKey.order_id, by decide⟩
  exact ⟨h4, h2⟩

/-! ## Claims C5 and C8 -/

theorem applyEvents_cons (s : SheetState) (e : Event) (evs : List Event) :
    applyEvents s (e :: evs) = applyEvents (applyEvent s e) evs := rfl

theorem applyEvents_append (s : SheetState) (l1 l2 : List Event) :
    applyEvents s (l1 ++ l2) = applyEvents (applyEvents s l1) l2 :=
  List.foldl_append applyEvent s l1 l2

theorem wb_header : writeBlock [] 1 [headersRow] = [headersRow] :=
  writeBlock_append [headersRow] []

theorem applyEvent_prep_lit (g : List (List Str)) (b w tb : Bool) :
    applyEvent ⟨g, b, w⟩ (prepEvent tb) = ⟨[], b, w⟩ := by
  cases tb <;> rfl

theorem applyEvent_hdr (b w : Bool) :
    applyEvent ⟨[], b, w⟩ (Event.writeCells 1 1 [headersRow]) =
      ⟨[headersRow], b, w⟩ := by
  show (⟨writeBlock [] 1 [headersRow], b, w⟩ : SheetState) = _
  rw [wb_header]

/-- A target-not-existing variant of the demo configuration. -/
def demoCfg2 : RunConfig :=
  ⟨⟨100, 500, 2 / 1000, lc "支援审核订单详情", lc "电核订单英文翻译"⟩,
    false, lc "2025-07-02"⟩

/-- External status-container calls raise on every row. -/
def allRowsFail : Nat → Bool := fun _ => true

set_option maxRecDepth 100000 in
/-- Counterexample for C5: on a successful concrete run, the trace begins
with the worksheet clear and the `A1:E1` header write and only then the
first translation request — so writes to the destination sheet do occur
before the per-row processing loop, contrary to the claim. -/
theorem C5_counterexample :
    (process_orders demoCfg svcFail noRowFail ⟨0, 0⟩
        (demoHeaders :: [demoRow]) demoCutoff).events.take 3 =
      [Event.clearTarget, Event.writeCells 1 1 [headersRow],
        Event.translate (lc "详情A")] ∧
    (resultDict demoCutoff (process_orders demoCfg svcFail noRowFail ⟨0, 0⟩
        (demoHeaders :: [demoRow]) demoCutoff).result).1 = true := by
  exact ⟨by decide, by decide⟩

/-- Claim C5 (corrected): in every run that reaches the processing stage,
the trace is exactly: the clear-or-create of the destination sheet, then
the constant header-row write, then the row-loop events — all of which are
translation requests — and finally the data-write stage, whose events all
touch the sheet (batch writes and the two formatting directives).  Thus
the *data batches* are driven only after every filtered order has been
processed or has individually failed, but the sheet clear/create and the
header write precede the per-row loop. -/
theorem C5_corrected (cfg : RunConfig) (svc : Nat → Option SvcResp)
    (rowFail : Nat → Bool) (stats0 : UsageStats) (headers : List Str)
    (body : List (List Str)) (cutoff : PDate) (inds : Indices)
    (hres : resolveIndices headers = .inr inds)
    (hne : filterOrders inds cutoff body ≠ [])
    (hcap : (filterOrders inds cutoff body).length ≤ cfg.settings.maxDailyOrders) :
    (process_orders cfg svc rowFail stats0 (headers :: body) cutoff).events =
      prepEvent cfg.targetExists :: Event.writeCells 1 1 [headersRow] ::
        (pipelineLoop cfg svc rowFail stats0 inds body cutoff).events ++
        dataWriteEvents (pipelineLoop cfg svc rowFail stats0 inds body cutoff).records ∧
    (∀ e ∈ (pipelineLoop cfg svc rowFail stats0 inds body cutoff).events,
      ∃ t, e = Event.translate t) ∧
    (∀ e ∈ dataWriteEvents
        (pipelineLoop cfg svc rowFail stats0 inds body cutoff).records,
      isSheetWrite e = true) := by
  refine ⟨?_, ?_, ?_⟩
  · rw [process_orders_run cfg svc rowFail stats0 headers body cutoff inds
      hres hne hcap]
  · exact processLoop_events_translate svc rowFail inds cfg.today _ 0 0 stats0
  · intro e he
    unfold dataWriteEvents at he
    by_cases hp : (pipelineLoop cfg svc rowFail stats0 inds body cutoff).records.isEmpty
    · rw [if_pos hp] at he
      exact absurd he (List.not_mem_nil e)
    · rw [if_neg hp] at he
      rw [List.mem_append] at he
      rcases he with he | he
      · unfold batchEvents at he
        obtain ⟨k, hk, _, _⟩ := batchGo_mem_shape _ 0 _ e he
        rw [hk]
        rfl
      · rw [List.mem_cons, List.mem_singleton] at he
        rcases he with rfl | rfl <;> rfl

/-- Witness for C5 at a concrete run (fresh target sheet, failing
translation service). -/
theorem C5_witness :
    (process_orders demoCfg2 svcFail noRowFail ⟨0, 0⟩
        (demoHeaders :: [demoRow]) demoCutoff).events =
      prepEvent false :: Event.writeCells 1 1 [headersRow] ::
        (pipelineLoop demoCfg2 svcFail noRowFail ⟨0, 0⟩ demoInds [demoRow]
          demoCutoff).events ++
        dataWriteEvents (pipelineLoop demoCfg2 svcFail noRowFail ⟨0, 0⟩ demoInds
          [demoRow] demoCutoff).records :=
  (C5_corrected demoCfg2 svcFail noRowFail ⟨0, 0⟩ demoHeaders [demoRow] demoCutoff
    demoInds (by decide) (by decide) (by decide)).1

set_option maxRecDepth 100000 in
/-- Counterexample for C8: a successful run in which the only filtered row
fails individually (its in-`try` external status call raises) processes
zero records; the run still succeeds, the sheet holds only the header row,
and the bold/wrap formatting directives are never applied — contradicting
the claim's unconditional "afterwards the header row is bolded and column
D gets wrap formatting". -/
theorem C8_counterexample :
    (resultDict demoCutoff (process_orders demoCfg svcFail allRowsFail ⟨0, 0⟩
        (demoHeaders :: [demoRow]) demoCutoff).result).1 = true ∧
    (applyEvents ⟨[], false, false⟩ (process_orders demoCfg svcFail allRowsFail
        ⟨0, 0⟩ (demoHeaders :: [demoRow]) demoCutoff).events).grid = [headersRow] ∧
    (applyEvents ⟨[], false, false⟩ (process_orders demoCfg svcFail allRowsFail
        ⟨0, 0⟩ (demoHeaders :: [demoRow]) demoCutoff).events).bold = false ∧
    (applyEvents ⟨[], false, false⟩ (process_orders demoCfg svcFail allRowsFail
        ⟨0, 0⟩ (demoHeaders :: [demoRow]) demoCutoff).events).wrap = false := by
  exact ⟨by decide, by decide, by decide, by decide⟩

/-- Claim C8 (corrected): for every run that reaches the processing stage
(which, in this model without write failures, is exactly every successful
run), the destination sheet afterwards holds the constant header row as
row 1 and the processed records as rows 2..N+1 in order; every data batch
is a consecutive chunk of at most 20 records written at the row
`2 + (records written so far)`; and — the amendment — the bold-header and
wrap-column directives are applied exactly when at least one record was
processed: a successful run whose rows all failed individually writes no
data and applies no formatting. -/
theorem C8_corrected (cfg : RunConfig) (svc : Nat → Option SvcResp)
    (rowFail : Nat → Bool) (stats0 : UsageStats) (headers : List Str)
    (body : List (List Str)) (cutoff : PDate) (inds : Indices)
    (g0 : List (List Str))
    (hres : resolveIndices headers = .inr inds)
    (hne : filterOrders inds cutoff body ≠ [])
    (hcap : (filterOrders inds cutoff body).length ≤ cfg.settings.maxDailyOrders) :
    (resultDict cutoff (process_orders cfg svc rowFail stats0
        (headers :: body) cutoff).result).1 = true ∧
    (applyEvents ⟨g0, false, false⟩ (process_orders cfg svc rowFail stats0
        (headers :: body) cutoff).events).grid =
      headersRow :: (pipelineLoop cfg svc rowFail stats0 inds body cutoff).records ∧
    (∀ e ∈ batchEvents 0 (pipelineLoop cfg svc rowFail stats0 inds body
        cutoff).records, ∃ k,
      e = Event.writeCells (20 * k + 2)
            (20 * k + 2 + (((pipelineLoop cfg svc rowFail stats0 inds body
              cutoff).records.drop (20 * k)).take 20).length - 1)
            (((pipelineLoop cfg svc rowFail stats0 inds body
              cutoff).records.drop (20 * k)).take 20) ∧
        (((pipelineLoop cfg svc rowFail stats0 inds body
          cutoff).records.drop (20 * k)).take 20).length ≤ 20) ∧
    ((pipelineLoop cfg svc rowFail stats0 inds body cutoff).records ≠ [] →
      (applyEvents ⟨g0, false, false⟩ (process_orders cfg svc rowFail stats0
        (headers :: body) cutoff).events).bold = true ∧
      (applyEvents ⟨g0, false, false⟩ (process_orders cfg svc rowFail stats0
        (headers :: body) cutoff).events).wrap = true) ∧
    ((pipelineLoop cfg svc rowFail stats0 inds body cutoff).records = [] →
      dataWriteEvents (pipelineLoop cfg svc rowFail stats0 inds body
        cutoff).records = [] ∧
      (applyEvents ⟨g0, false, false⟩ (process_orders cfg svc rowFail stats0
        (headers :: body) cutoff).events).bold = false ∧
      (applyEvents ⟨g0, false, false⟩ (process_orders cfg svc rowFail stats0
        (headers :: body) cutoff).events).wrap = false) := by
  have hev := process_orders_run cfg svc rowFail stats0 headers body cutoff inds
    hres hne hcap
  set lp := pipelineLoop cfg svc rowFail stats0 inds body cutoff with hlp
  have hev' : (process_orders cfg svc rowFail stats0 (headers :: body)
      cutoff).events =
      prepEvent cfg.targetExists :: Event.writeCells 1 1 [headersRow] ::
        lp.events ++ dataWriteEvents lp.records := by
    rw [hev]
  have hres' : (process_orders cfg svc rowFail stats0 (headers :: body)
      cutoff).result =
      .ok lp.records.length (filterOrders inds cutoff body).length
        (get_usage_info cfg.settings lp.stats) := by
    rw [hev]
  have hst : applyEvents ⟨g0, false, false⟩ (process_orders cfg svc rowFail stats0
      (headers :: body) cutoff).events =
      (if lp.records.isEmpty then (⟨[headersRow], false, false⟩ : SheetState)
       else ⟨headersRow :: lp.records, true, true⟩) := by
    rw [hev', applyEvents_append, applyEvents_cons, applyEvent_prep_lit,
      applyEvents_cons, applyEvent_hdr]
    rw [applyEvents_translate_only lp.events ⟨[headersRow], false, false⟩
      (fun e he => processLoop_events_translate svc rowFail inds cfg.today
        _ 0 0 stats0 e he)]
    unfold dataWriteEvents
    cases hrec : lp.records.isEmpty with
    | true =>
      simp only [hrec, if_true]
      rfl
    | false =>
      simp only [hrec, Bool.false_eq_true, if_false]
      rw [applyEvents_append]
      have hb : applyEvents ⟨[headersRow], false, false⟩
          (batchEvents 0 lp.records) =
          ⟨headersRow :: lp.records, false, false⟩ := by
        have hgo := applyEvents_batchGo lp.records.length lp.records
          ⟨[headersRow], false, false⟩ (Nat.le_refl _) (by simp)
        simpa [batchEvents] using hgo
      rw [hb]
      rfl
  refine ⟨?_, ?_, ?_, ?_, ?_⟩
  · rw [hres']
    rfl
  · rw [hst]
    by_cases hrec : lp.records.isEmpty
    · rw [if_pos hrec, List.isEmpty_iff.mp hrec]
    · rw [if_neg hrec]
  · intro e he
    unfold batchEvents at he
    obtain ⟨k, hk, hk2, _⟩ := batchGo_mem_shape lp.records.length 0 lp.records e he
    refine ⟨k, ?_, hk2⟩
    rw [hk]
    have h0 : 0 + 20 * k + 2 = 20 * k + 2 := by omega
    rw [h0]
  · intro hrec
    have hrec' : lp.records.isEmpty = false := by
      cases h : lp.records.isEmpty
      · rfl
      · exact absurd (List.isEmpty_iff.mp h) hrec
    rw [hst, hrec']
    exact ⟨rfl, rfl⟩
  · intro hrec
    have hrec' : lp.records.isEmpty = true := by
      rw [hrec]
      rfl
    rw [hst, hrec']
    refine ⟨?_, rfl, rfl⟩
    unfold dataWriteEvents
    rw [if_pos hrec']

/-- Witness for C8 at a concrete run: stale prior content is cleared, the
final grid is the header row followed by the processed record, and both
formatting directives were applied. -/
theorem C8_witness :
    (applyEvents ⟨[[lc "stale"]], false, false⟩
        (process_orders demoCfg svcFail noRowFail ⟨0, 0⟩
          (demoHeaders :: [demoRow]) demoCutoff).events).grid =
      headersRow :: (pipelineLoop demoCfg svcFail noRowFail ⟨0, 0⟩ demoInds
        [demoRow] demoCutoff).records ∧
    (applyEvents ⟨[[lc "stale"]], false, false⟩
        (process_orders demoCfg svcFail noRowFail ⟨0, 0⟩
          (demoHeaders :: [demoRow]) demoCutoff).events).bold = true := by
  have h := C8_corrected demoCfg svcFail noRowFail ⟨0, 0⟩ demoHeaders [demoRow]
    demoCutoff demoInds [[lc "stale"]] (by decide) (by decide) (by decide)
  exact ⟨h.2.1, (h.2.2.2.1 (by decide)).1⟩

end OrderTranslation
